import Mathlib

/-!
Verification development for the ip_lookup module (src/ip_lookup.py).

This file gives a shallow embedding, in Lean 4, of the pure logic of the
module: coordinate normalisation, ASN and company derivation, the three
provider adapters' response mapping, the score-and-merge rule, the TTL
policy of the lookup orchestrator, the in-process cache backend, and an
idealised timing model of the hedging scheduler.

Modelling conventions:
- Python dicts holding the normalized record become the structure
  NormalizedRecord; fields that may be missing or None are Option-valued.
- Python truthiness on optional strings (None and the empty string are
  falsy) is the function pyTruthy.
- JSON numbers (latitude, longitude) are modelled as rationals, and
  Python's 6-decimal float formatting as fixed-point rounding on
  rationals (fmt6).
- Wall-clock times (time.time, TTLs, latencies) are rationals.
- An adapter's HTTP interaction is abstracted as an HttpResult: either a
  transport error, or a response with a status code and an optionally
  parseable body (body = none models a JSON parse failure). Because each
  adapter is a total Lean function into Option NormalizedRecord, the
  "never raises" contract is expressed by totality plus the theorems
  that every error case maps to none.
-/

/-- The asn sub-dictionary of a normalized record, as built by the
function named by the source as an ASN block builder. -/
structure AsnBlock where
  asn : String
  name : String
  domain : String
  type : String
deriving DecidableEq

/-- The company sub-dictionary of a normalized record. -/
structure Company where
  name : String
  domain : String
  type : String
deriving DecidableEq

/-- The privacy sub-dictionary of a normalized record. -/
structure Privacy where
  vpn : Bool
  proxy : Bool
  tor : Bool
  relay : Bool
  hosting : Bool
deriving DecidableEq

/-- The common schema every adapter produces. confidence and age_ms are
absent (none) on raw adapter output and set by the merge step. -/
structure NormalizedRecord where
  ip : String
  city : Option String
  region : Option String
  region_code : Option String
  country : Option String
  country_code : Option String
  continent : Option String
  continent_code : Option String
  loc : Option String
  postal : Option String
  timezone : Option String
  asn : AsnBlock
  company : Company
  privacy : Privacy
  source : List String
  confidence : Option ℚ
  age_ms : Option Nat
deriving DecidableEq

/-- Python truthiness of an optional string: None and the empty string
are falsy, every other string is truthy. -/
def pyTruthy : Option String → Bool
  | none => false
  | some s => if s = "" then false else true

/-- Python expression a or b where a is an optional string and b a
string: falls through to b when a is None or empty. -/
def pyOr (a : Option String) (b : String) : String :=
  match a with
  | none => b
  | some s => if s = "" then b else s

/-- Python expression a or b on two optional strings. -/
def pyOrOpt (a b : Option String) : Option String :=
  match a with
  | none => b
  | some s => if s = "" then b else some s

/-- The completeness score of a candidate record, from the local score
function inside the merge: +3 for a truthy loc, +1 for a truthy
timezone, +1 for a truthy country or country_code, +1 for a non-empty
asn.asn. -/
def score (d : NormalizedRecord) : Nat :=
  (if pyTruthy d.loc then 3 else 0) +
  (if pyTruthy d.timezone then 1 else 0) +
  (if pyTruthy d.country || pyTruthy d.country_code then 1 else 0) +
  (if d.asn.asn = "" then 0 else 1)

/-- Stable descending insertion by score: the inserted element goes
before every element of equal or lower score that was later in the
original order. Folding this over the input reproduces the output of
Python's stable in-place sort with key=score and reverse=True. -/
def insertDesc (x : NormalizedRecord) : List NormalizedRecord → List NormalizedRecord
  | [] => [x]
  | y :: ys => if score x < score y then y :: insertDesc x ys else x :: y :: ys

/-- The candidate list after results.sort(key=score, reverse=True):
scores non-increasing, ties kept in input order (stable). -/
def sortDesc (l : List NormalizedRecord) : List NormalizedRecord :=
  l.foldr insertDesc []

/-- Largest score occurring in a candidate list (0 for the empty list). -/
def maxScore (l : List NormalizedRecord) : Nat :=
  l.foldr (fun r m => max (score r) m) 0

/-- The base record the merge picks: the head of the sorted candidate
list (results[0] after the in-place sort). -/
def mergeBase (l : List NormalizedRecord) : Option NormalizedRecord :=
  (sortDesc l).head?

/-- The srcs accumulation loop of the merge: concatenation of every
candidate's source list, in candidate order. -/
def collectSources : List NormalizedRecord → List String
  | [] => []
  | r :: rs => r.source ++ collectSources rs

/-- Order-preserving first-occurrence deduplication with an explicit
seen accumulator; dedupFirst below instantiates it with an empty seen
list and models Python's list(dict.fromkeys(srcs)). -/
def dedupFirstAux (seen : List String) : List String → List String
  | [] => []
  | x :: xs => if x ∈ seen then dedupFirstAux seen xs
               else x :: dedupFirstAux (x :: seen) xs

/-- Python list(dict.fromkeys(srcs)): keeps the first occurrence of
each string, in first-seen order. -/
def dedupFirst (l : List String) : List String := dedupFirstAux [] l

/-- The merge: returns none on an empty candidate list; otherwise sorts
by score (stable, descending), takes the head as the base, replaces its
source list by the deduplicated concatenation of all candidates' source
lists in sorted order, and sets confidence (9/10 when the merged source
list has length at least 2 and the base has a truthy loc, else 7/10
with a truthy loc, else 6/10) and age_ms = 0. -/
def merge_first_good (results : List NormalizedRecord) : Option NormalizedRecord :=
  match sortDesc results with
  | [] => none
  | best :: rest =>
    let srcs := dedupFirst (collectSources (best :: rest))
    let hasLoc := pyTruthy best.loc
    some { best with
      source := srcs,
      confidence := some (if 2 ≤ srcs.length ∧ hasLoc = true then 9/10
                          else if hasLoc = true then 7/10 else 6/10),
      age_ms := some 0 }

/-- Prefix test on character lists (helper for the substring test that
models Python's k in s). -/
def isPre : List Char → List Char → Bool
  | [], _ => true
  | _ :: _, [] => false
  | c :: cs, d :: ds => c == d && isPre cs ds

/-- Substring search over the suffixes of the haystack. -/
def hasSubAux (nd : List Char) : List Char → Bool
  | [] => nd.isEmpty
  | c :: cs => isPre nd (c :: cs) || hasSubAux nd cs

/-- Python expression nd in hay on strings (substring containment). -/
def strContains (hay nd : String) : Bool :=
  hasSubAux nd.toList hay.toList

/-- Python str.upper on ASCII text, character by character. -/
def strUpper (s : String) : String :=
  String.mk (s.toList.map Char.toUpper)

/-- Python str.lower on ASCII text, character by character. -/
def strLower (s : String) : String :=
  String.mk (s.toList.map Char.toLower)

/-- The ASCII whitespace characters Python str.strip removes. -/
def pyIsSpace (c : Char) : Bool :=
  c == ' ' || c == '\t' || c == '\n' || c == '\r' || c == '\x0b' || c == '\x0c'

/-- Python str.strip with no argument: drop leading and trailing
whitespace. -/
def strStrip (s : String) : String :=
  String.mk (((s.toList.dropWhile pyIsSpace).reverse.dropWhile pyIsSpace).reverse)

/-- Split a character list at the first occurrence of sep: the part
before it, and the part after it when sep occurs at all. -/
def breakAtFirst (sep : Char) : List Char → List Char × Option (List Char)
  | [] => ([], none)
  | c :: cs =>
    if c = sep then ([], some cs)
    else
      let p := breakAtFirst sep cs
      (c :: p.1, p.2)

/-- Left-pad a digit string with zeros to width 6 (helper for fmt6). -/
def padZeros6 (s : String) : String :=
  String.mk (List.replicate (6 - s.length) '0') ++ s

/-- The Python format specifier .6f applied to a coordinate, modelled
on rationals: round the value to 6 decimal places and print sign,
integer part, a dot and exactly six fraction digits. Python formats the
IEEE double nearest to the JSON value; the models agree whenever the
value is not within one double ulp of a 7th-decimal tie, in particular
on every value with at most 6 decimal digits. -/
def fmt6 (q : ℚ) : String :=
  let n : Int := round (q * 1000000)
  let m : Nat := n.natAbs
  (if n < 0 then "-" else "") ++ toString (m / 1000000) ++ "." ++
    padZeros6 (toString (m % 1000000))

/-- The coordinate normaliser norm_coord of the source: none unless
both coordinates are present as numbers (a none input models a missing
field or a failed float conversion), and the latitude lies in [-90, 90]
and the longitude in [-180, 180]; otherwise the 6-decimal rendering
"lat,lon". -/
def norm_coord (lat lon : Option ℚ) : Option String :=
  match lat, lon with
  | some la, some lo =>
    if -90 ≤ la ∧ la ≤ 90 ∧ -180 ≤ lo ∧ lo ≤ 180 then
      some (fmt6 la ++ "," ++ fmt6 lo)
    else none
  | _, _ => none

/-- The hosting keyword list of the company deriver. -/
def hostingKeys : List String :=
  ["aws", "amazon", "google", "gcp", "azure", "microsoft", "cloudflare",
   "ovh", "digitalocean", "hetzner", "aliyun", "akamai", "fastly",
   "oracle cloud"]

/-- The company block builder isp_to_company of the source: strips the
ISP name, classifies it as hosting when any hosting keyword occurs in
its lowercase form, and always emits an empty domain. -/
def isp_to_company (isp : Option String) : Company :=
  let s := strStrip (pyOr isp "")
  { name := s,
    domain := "",
    type := if hostingKeys.any (fun k => strContains (strLower s) k)
            then "hosting" else "isp" }

/-- Python str.lstrip("AS"): drop every leading character that is an
uppercase A or S. -/
def lstripAS (s : String) : String :=
  String.mk (s.toList.dropWhile (fun c => c == 'A' || c == 'S'))

/-- The ASN block builder asn_block of the source: uppercase the raw
value (missing becomes the empty string), strip leading A and S
characters, and prepend the literal "AS" when anything is left; the
type is hosting exactly when the word cloud occurs in the lowercase
organisation name, and the domain is always empty. -/
def asn_block (asn org : Option String) : AsnBlock :=
  let a := lstripAS (strUpper (pyOr asn ""))
  { asn := if a = "" then "" else "AS" ++ a,
    name := pyOr org "",
    domain := "",
    type := if strContains (strLower (pyOr org "")) "cloud" then "hosting" else "isp" }

/-- The privacy block builder privacy_guess of the source: every flag
false except hosting, which mirrors a hosting company type. -/
def privacy_guess (company_type : String) : Privacy :=
  { vpn := false, proxy := false, tor := false, relay := false,
    hosting := company_type == "hosting" }

/-- Outcome of one adapter's HTTP call: a transport-level failure, or a
response carrying a status code and a body; body = none models a body
on which JSON parsing fails. -/
inductive HttpResult (β : Type) where
  | transportError : HttpResult β
  | response (status : Nat) (body : Option β) : HttpResult β
deriving DecidableEq

/-- The fields of an ipapi.co JSON body that the adapter reads. -/
structure IpapiResp where
  ip : Option String
  city : Option String
  region : Option String
  region_code : Option String
  country_name : Option String
  country : Option String
  postal : Option String
  timezone : Option String
  org : Option String
  asn : Option String
  latitude : Option ℚ
  longitude : Option ℚ
deriving DecidableEq

/-- The record the ipapi.co adapter builds from a parsed 200 body. -/
def p_ipapi_parse (ip : String) (d : IpapiResp) : NormalizedRecord :=
  let loc := norm_coord d.latitude d.longitude
  let isp := d.org
  { ip := pyOr d.ip ip,
    city := d.city,
    region := d.region,
    region_code := d.region_code,
    country := d.country_name,
    country_code := d.country,
    continent := none,
    continent_code := none,
    loc := loc,
    postal := d.postal,
    timezone := d.timezone,
    asn := asn_block d.asn d.org,
    company := isp_to_company isp,
    privacy := privacy_guess (isp_to_company isp).type,
    source := ["ipapi.co"],
    confidence := none,
    age_ms := none }

/-- The ipapi.co adapter p_ipapi: absent on transport error, on any
status other than 200 and on an unparsable body. -/
def p_ipapi (ip : String) (h : HttpResult IpapiResp) : Option NormalizedRecord :=
  match h with
  | .transportError => none
  | .response status body =>
    if status ≠ 200 then none
    else
      match body with
      | none => none
      | some d => some (p_ipapi_parse ip d)

/-- The fields of an ipinfo.io JSON body that the adapter reads. -/
structure IpinfoResp where
  ip : Option String
  city : Option String
  region : Option String
  country : Option String
  loc : Option String
  postal : Option String
  timezone : Option String
  org : Option String
deriving DecidableEq

/-- Python s.split(" ", 1)[0]: the part of s before the first space (s
itself when there is none). -/
def splitHead (s : String) : String :=
  String.mk (breakAtFirst ' ' s.toList).1

/-- Python s.split(" ", 1)[-1]: everything after the first space when
one exists, otherwise s itself. -/
def splitRest (s : String) : String :=
  match (breakAtFirst ' ' s.toList).2 with
  | none => s
  | some rest => String.mk rest

/-- The record the ipinfo.io adapter builds from a parsed 200 body.
The provider's loc string is copied into the record verbatim, without
passing through norm_coord. -/
def p_ipinfo_parse (ip : String) (d : IpinfoResp) : NormalizedRecord :=
  let loc := d.loc
  let org_field := pyOr d.org ""
  let isp : Option String :=
    if org_field = "" then none else some (splitRest org_field)
  let asn_code : Option String :=
    if org_field = "" then none else some (splitHead org_field)
  { ip := pyOr d.ip ip,
    city := d.city,
    region := d.region,
    region_code := none,
    country := none,
    country_code := d.country,
    continent := none,
    continent_code := none,
    loc := loc,
    postal := d.postal,
    timezone := d.timezone,
    asn := asn_block asn_code isp,
    company := isp_to_company isp,
    privacy := privacy_guess (isp_to_company isp).type,
    source := ["ipinfo.io"],
    confidence := none,
    age_ms := none }

/-- The ipinfo.io adapter p_ipinfo: absent when the IPINFO_TOKEN
credential is empty or missing, on transport error, on any status other
than 200 and on an unparsable body. -/
def p_ipinfo (ip token : String) (h : HttpResult IpinfoResp) : Option NormalizedRecord :=
  if token = "" then none
  else
    match h with
    | .transportError => none
    | .response status body =>
      if status ≠ 200 then none
      else
        match body with
        | none => none
        | some d => some (p_ipinfo_parse ip d)

/-- The timeZone sub-object of a BigDataCloud location. -/
structure BdcTimeZone where
  ianaTimeId : Option String
deriving DecidableEq

/-- Empty timeZone object (the or-empty-dict default). -/
def BdcTimeZone.empty : BdcTimeZone := ⟨none⟩

/-- The location sub-object of a BigDataCloud body. -/
structure BdcLocation where
  latitude : Option ℚ
  longitude : Option ℚ
  principalSubdivision : Option String
  isoPrincipalSubdivision : Option String
  isoPrincipalSubdivisionCode : Option String
  city : Option String
  localityName : Option String
  postcode : Option String
  continent : Option String
  continentCode : Option String
  timeZone : Option BdcTimeZone
deriving DecidableEq

/-- Empty location object (the or-empty-dict default). -/
def BdcLocation.empty : BdcLocation :=
  ⟨none, none, none, none, none, none, none, none, none, none, none⟩

/-- The country sub-object of a BigDataCloud body. -/
structure BdcCountry where
  name : Option String
  isoAlpha2 : Option String
  isoCode : Option String
deriving DecidableEq

/-- Empty country object (the or-empty-dict default). -/
def BdcCountry.empty : BdcCountry := ⟨none, none, none⟩

/-- One entry of the carriers list of a BigDataCloud network object.
A numeric asn in the JSON is modelled by its decimal string, matching
the str conversion the ASN block builder applies. -/
structure BdcCarrier where
  asn : Option String
  organisation : Option String
deriving DecidableEq

/-- Empty carrier object (the carriers-empty default). -/
def BdcCarrier.empty : BdcCarrier := ⟨none, none⟩

/-- The network sub-object of a BigDataCloud body. -/
structure BdcNetwork where
  registeredCountryName : Option String
  registeredCountry : Option String
  asn : Option String
  organisation : Option String
  carriers : Option (List BdcCarrier)
deriving DecidableEq

/-- Empty network object (the or-empty-dict default). -/
def BdcNetwork.empty : BdcNetwork := ⟨none, none, none, none, none⟩

/-- The parts of a BigDataCloud ip-geolocation body the adapter reads. -/
structure BdcResp where
  location : Option BdcLocation
  country : Option BdcCountry
  network : Option BdcNetwork
deriving DecidableEq

/-- The record the BigDataCloud adapter builds from a parsed 200 body:
coordinates through norm_coord, region and city and country fields with
the or-fallback chains of the source, the first carriers entry taking
precedence over the network-level asn and organisation. -/
def p_bigdatacloud_parse (ip : String) (d : BdcResp) : NormalizedRecord :=
  let loc := d.location.getD BdcLocation.empty
  let country := d.country.getD BdcCountry.empty
  let net := d.network.getD BdcNetwork.empty
  let coord := norm_coord loc.latitude loc.longitude
  let region_name := pyOrOpt loc.principalSubdivision loc.isoPrincipalSubdivision
  let region_code := loc.isoPrincipalSubdivisionCode
  let city := pyOrOpt loc.city loc.localityName
  let postal := pyOrOpt loc.postcode none
  let tz := (loc.timeZone.getD BdcTimeZone.empty).ianaTimeId
  let country_name := pyOrOpt country.name net.registeredCountryName
  let country_code :=
    pyOrOpt (pyOrOpt country.isoAlpha2 country.isoCode) net.registeredCountry
  let carriers := net.carriers.getD []
  let primary_carrier := match carriers with | [] => BdcCarrier.empty | c :: _ => c
  let asn_code := pyOrOpt primary_carrier.asn net.asn
  let org := pyOrOpt primary_carrier.organisation net.organisation
  { ip := ip,
    city := city,
    region := region_name,
    region_code := region_code,
    country := country_name,
    country_code := country_code,
    continent := loc.continent,
    continent_code := loc.continentCode,
    loc := coord,
    postal := postal,
    timezone := tz,
    asn := asn_block asn_code org,
    company := isp_to_company org,
    privacy := privacy_guess (isp_to_company org).type,
    source := ["bigdatacloud"],
    confidence := none,
    age_ms := none }

/-- The BigDataCloud adapter p_bigdatacloud: absent when the BDC_KEY
credential is empty or missing, on transport error, on any status other
than 200 and on an unparsable body. -/
def p_bigdatacloud (ip key : String) (h : HttpResult BdcResp) : Option NormalizedRecord :=
  if key = "" then none
  else
    match h with
    | .transportError => none
    | .response status body =>
      if status ≠ 200 then none
      else
        match body with
        | none => none
        | some d => some (p_bigdatacloud_parse ip d)

/-- The in-process fallback cache backend: a mapping from key to the
pair of absolute expiry time and record, as a function model of the
Python dict self mem. -/
structure MemCache where
  mem : String → Option (ℚ × NormalizedRecord)

/-- Cache.get on the in-process backend, at wall-clock time now:
a missing key is a miss; a key whose stored expiry is strictly in the
past is popped from the mapping and reported as a miss; otherwise the
stored record is returned and the mapping is unchanged. Returns the
looked-up value together with the mapping after the call. -/
def MemCache.get (c : MemCache) (now : ℚ) (key : String) :
    Option NormalizedRecord × MemCache :=
  match c.mem key with
  | none => (none, c)
  | some (exp, val) =>
    if exp < now then (none, ⟨fun k => if k = key then none else c.mem k⟩)
    else (some val, c)

/-- Cache.set on the in-process backend at time now: stores the record
under the key with absolute expiry now + ttl. -/
def MemCache.set (c : MemCache) (now : ℚ) (key : String)
    (val : NormalizedRecord) (ttl : ℚ) : MemCache :=
  ⟨fun k => if k = key then some (now + ttl, val) else c.mem k⟩

/-- What lookup_ip does after the fetch phase, as data: the returned
record (if any) and the cache write it performs (if any), the write
given as key, value and ttl in seconds. -/
structure LookupOutcome where
  result : Option NormalizedRecord
  write : Option (String × NormalizedRecord × Nat)
deriving DecidableEq

/-- The decision logic of lookup_ip around the cache, given the default
TTL configuration, the cache read result and the list of adapter
results that completed in time: a cache hit is returned with age_ms
reset to 0 and no write; otherwise the merge runs, a none merge is
returned as absent with no write, and a some merge is written back
under key "ip:" ++ ip with the default TTL, capped at 600 seconds when
the merged record's privacy.hosting flag is set. -/
def lookup_ip_step (defaultTTL : Nat) (ip : String)
    (cached : Option NormalizedRecord) (completed : List NormalizedRecord) :
    LookupOutcome :=
  match cached with
  | some c => { result := some { c with age_ms := some 0 }, write := none }
  | none =>
    match merge_first_good completed with
    | none => { result := none, write := none }
    | some m =>
      let ttl := if m.privacy.hosting then min defaultTTL 600 else defaultTTL
      { result := some m, write := some ("ip:" ++ ip, m, ttl) }

/-- Applying an optional cache write to an in-process cache at time
now: no write leaves the cache untouched. -/
def applyWrite (c : MemCache) (now : ℚ) :
    Option (String × NormalizedRecord × Nat) → MemCache
  | none => c
  | some (k, v, ttl) => c.set now k v (ttl : ℚ)

/-- The stagger delay of the hedging scheduler, in seconds: the
asyncio.sleep(0.2) between the two launch waves. -/
def staggerS : ℚ := 2/10

/-- The timeout argument of the final asyncio.wait call, in seconds. -/
def waitTimeoutS : ℚ := 16/10

/-- Launch time of the i-th provider task, measured from the launch of
the first wave, under idealised timing (the sleep takes exactly its
argument and everything else is instantaneous): the first two providers
start at 0, the rest after the stagger. -/
def startTime (i : Nat) : ℚ :=
  if i < 2 then 0 else staggerS

/-- The absolute time, from the launch of the first wave, at which the
final wait resolves at the latest: the wait starts after the stagger
sleep and its timeout is waitTimeoutS, so tasks still pending at
staggerS + waitTimeoutS are cancelled. -/
def hedgeDeadline : ℚ := staggerS + waitTimeoutS

/-- Collect the results of the provider tasks that complete by the
given deadline, under idealised timing. Each task is a pair of its
latency and the optional record it would produce; i is the index of the
first listed task. A task contributes exactly when its launch time plus
its latency is within the deadline and it produced a record (a none
production models an adapter that returned absent or raised). -/
def collectFrom (deadline : ℚ) (i : Nat) :
    List (ℚ × Option NormalizedRecord) → List NormalizedRecord
  | [] => []
  | (dur, res) :: rest =>
    let tail := collectFrom deadline (i + 1) rest
    if startTime i + dur ≤ deadline then
      match res with
      | some r => r :: tail
      | none => tail
    else tail

/-- The set of adapter results the scheduler of lookup_ip hands to the
merge, under idealised timing: tasks completing by hedgeDeadline. -/
def hedgeResults (tasks : List (ℚ × Option NormalizedRecord)) :
    List NormalizedRecord :=
  collectFrom hedgeDeadline 0 tasks

/-- Modelled from the spec: parser for one coordinate of the claimed
loc format, an optional minus sign, one or more digits, a dot and
exactly six digits, returning the rational value. -/
def digitsToNat (cs : List Char) : Nat :=
  cs.foldl (fun n c => n * 10 + (c.toNat - 48)) 0

def parseFixed6 (s : String) : Option ℚ :=
  let p := match s.toList with
    | '-' :: rest => (true, rest)
    | cs => (false, cs)
  match breakAtFirst '.' p.2 with
  | (a, some b) =>
    if a ≠ [] ∧ b.length = 6 ∧ a.all Char.isDigit ∧ b.all Char.isDigit then
      let q : ℚ := (digitsToNat a : ℚ) + (digitsToNat b : ℚ) / 1000000
      some (if p.1 then -q else q)
    else none
  | _ => none

/-- Modelled from the spec: decides whether a string is a loc value of
the claimed shape, two 6-decimal fixed-point coordinates joined by a
comma, with the latitude in [-90, 90] and the longitude in [-180, 180]. -/
def locFormatOK (s : String) : Bool :=
  match breakAtFirst ',' s.toList with
  | (a, some b) =>
    if b.all (fun c => !(c == ',')) then
      match parseFixed6 (String.mk a), parseFixed6 (String.mk b) with
      | some la, some lo => decide (-90 ≤ la ∧ la ≤ 90 ∧ -180 ≤ lo ∧ lo ≤ 180)
      | _, _ => false
    else false
  | _ => false

/-- Modelled from the spec: decides whether a string has the claimed
asn shape, the empty string or the literal "AS" followed by one or more
digits. -/
def asnShapeClaim (s : String) : Bool :=
  if s = "" then true
  else
    match s.toList with
    | 'A' :: 'S' :: c :: cs => (c :: cs).all Char.isDigit
    | _ => false

/-- A blank normalized record used to build concrete instances in the
evaluation theorems below. -/
def rec0 : NormalizedRecord :=
  { ip := "",
    city := none, region := none, region_code := none,
    country := none, country_code := none,
    continent := none, continent_code := none,
    loc := none, postal := none, timezone := none,
    asn := { asn := "", name := "", domain := "", type := "isp" },
    company := { name := "", domain := "", type := "isp" },
    privacy := { vpn := false, proxy := false, tor := false,
                 relay := false, hosting := false },
    source := [],
    confidence := none,
    age_ms := none }

attribute [local semireducible] Rat.mul Rat.inv Rat.add Rat.sub

theorem insertDesc_ne_nil (x : NormalizedRecord) (l : List NormalizedRecord) :
    insertDesc x l ≠ [] := by
  cases l with
  | nil => simp [insertDesc]
  | cons y ys =>
    simp only [insertDesc]
    split <;> simp

theorem sortDesc_eq_nil_iff (l : List NormalizedRecord) :
    sortDesc l = [] ↔ l = [] := by
  cases l with
  | nil => simp [sortDesc]
  | cons x xs =>
    constructor
    · intro h; exact absurd h (insertDesc_ne_nil _ _)
    · intro h; exact absurd h (List.cons_ne_nil _ _)

theorem mem_insertDesc {a x : NormalizedRecord} {l : List NormalizedRecord} :
    a ∈ insertDesc x l ↔ a = x ∨ a ∈ l := by
  induction l with
  | nil => simp [insertDesc]
  | cons y ys ih =>
    simp only [insertDesc]
    split
    · rw [List.mem_cons, ih, List.mem_cons]; tauto
    · rw [List.mem_cons, List.mem_cons]

theorem mem_sortDesc {a : NormalizedRecord} {l : List NormalizedRecord} :
    a ∈ sortDesc l ↔ a ∈ l := by
  induction l with
  | nil => simp [sortDesc]
  | cons x xs ih =>
    show a ∈ insertDesc x (sortDesc xs) ↔ _
    rw [mem_insertDesc, ih, List.mem_cons]

theorem mergeBase_eq_find (l : List NormalizedRecord) :
    mergeBase l = l.find? (fun r => score r == maxScore l) := by
  induction l with
  | nil => rfl
  | cons x xs ih =>
    by_cases hxs : xs = []
    · subst hxs
      simp [mergeBase, sortDesc, insertDesc, maxScore, List.find?]
    · obtain ⟨b, t, hbt⟩ : ∃ b t, sortDesc xs = b :: t := by
        cases h : sortDesc xs with
        | nil => exact absurd ((sortDesc_eq_nil_iff xs).mp h) hxs
        | cons b t => exact ⟨b, t, rfl⟩
      have hb : xs.find? (fun r => score r == maxScore xs) = some b := by
        rw [← ih]
        show (sortDesc xs).head? = some b
        rw [hbt]
        rfl
      have hscoreb : score b = maxScore xs := by
        have := List.find?_some hb
        simpa using this
      have hLHS : mergeBase (x :: xs) = some (if score x < score b then b else x) := by
        show (insertDesc x (sortDesc xs)).head? = _
        rw [hbt]
        simp only [insertDesc]
        split <;> rfl
      rw [hLHS]
      by_cases hcmp : score x < score b
      · have hmax : maxScore (x :: xs) = maxScore xs := by
          show max (score x) (maxScore xs) = maxScore xs
          omega
        rw [if_pos hcmp]
        have hpredx : ¬ ((score x == maxScore (x :: xs)) = true) := by
          rw [hmax]
          simp only [beq_iff_eq]
          omega
        have hfind : List.find? (fun r => score r == maxScore (x :: xs)) (x :: xs)
            = List.find? (fun r => score r == maxScore (x :: xs)) xs :=
          List.find?_cons_of_neg _ hpredx
        rw [hfind]
        simp only [hmax]
        exact hb.symm
      · have hle : maxScore xs ≤ score x := by omega
        have hmax : maxScore (x :: xs) = score x := by
          show max (score x) (maxScore xs) = score x
          omega
        rw [if_neg hcmp]
        have hpredx : (score x == maxScore (x :: xs)) = true := by
          rw [hmax]
          simp
        have hfind : List.find? (fun r => score r == maxScore (x :: xs)) (x :: xs)
            = some x :=
          List.find?_cons_of_pos _ hpredx
        rw [hfind]

theorem mem_dedupFirstAux {a : String} (l : List String) : ∀ seen,
    a ∈ dedupFirstAux seen l ↔ a ∈ l ∧ a ∉ seen := by
  induction l with
  | nil => intro seen; simp [dedupFirstAux]
  | cons x xs ih =>
    intro seen
    simp only [dedupFirstAux]
    by_cases hx : x ∈ seen
    · rw [if_pos hx, ih]
      simp only [List.mem_cons]
      constructor
      · rintro ⟨h1, h2⟩; exact ⟨Or.inr h1, h2⟩
      · rintro ⟨rfl | h1, h2⟩
        · exact absurd hx h2
        · exact ⟨h1, h2⟩
    · rw [if_neg hx, List.mem_cons, ih]
      simp only [List.mem_cons, not_or]
      constructor
      · rintro (rfl | ⟨h1, h2, h3⟩)
        · exact ⟨Or.inl rfl, hx⟩
        · exact ⟨Or.inr h1, h3⟩
      · rintro ⟨rfl | h1, h2⟩
        · exact Or.inl rfl
        · by_cases hax : a = x
          · exact Or.inl hax
          · exact Or.inr ⟨h1, hax, h2⟩

theorem nodup_dedupFirstAux (l : List String) : ∀ seen,
    (dedupFirstAux seen l).Nodup := by
  induction l with
  | nil => intro seen; simp [dedupFirstAux]
  | cons x xs ih =>
    intro seen
    simp only [dedupFirstAux]
    by_cases hx : x ∈ seen
    · rw [if_pos hx]; exact ih seen
    · rw [if_neg hx]
      refine List.nodup_cons.mpr ⟨?_, ih _⟩
      intro hmem
      have := (mem_dedupFirstAux xs (x :: seen)).mp hmem
      exact this.2 (List.mem_cons_self x seen)

theorem dedupFirstAux_sublist (l : List String) : ∀ seen,
    (dedupFirstAux seen l).Sublist l := by
  induction l with
  | nil => intro seen; simp [dedupFirstAux]
  | cons x xs ih =>
    intro seen
    simp only [dedupFirstAux]
    by_cases hx : x ∈ seen
    · rw [if_pos hx]; exact (ih seen).cons x
    · rw [if_neg hx]; exact (ih (x :: seen)).cons₂ x

theorem mem_dedupFirst {a : String} (l : List String) :
    a ∈ dedupFirst l ↔ a ∈ l := by
  rw [dedupFirst, mem_dedupFirstAux]
  simp

theorem nodup_dedupFirst (l : List String) : (dedupFirst l).Nodup :=
  nodup_dedupFirstAux l []

theorem mem_collectSources {s : String} (l : List NormalizedRecord) :
    s ∈ collectSources l ↔ ∃ r, r ∈ l ∧ s ∈ r.source := by
  induction l with
  | nil => simp [collectSources]
  | cons r rs ih =>
    simp only [collectSources, List.mem_append, ih]
    constructor
    · rintro (h | ⟨t, ht, hs⟩)
      · exact ⟨r, List.mem_cons_self _ _, h⟩
      · exact ⟨t, List.mem_cons_of_mem _ ht, hs⟩
    · rintro ⟨t, ht, hs⟩
      rcases List.mem_cons.mp ht with rfl | ht
      · exact Or.inl hs
      · exact Or.inr ⟨t, ht, hs⟩

theorem merge_first_good_of_sortDesc {l : List NormalizedRecord}
    {b : NormalizedRecord} {t : List NormalizedRecord}
    (h : sortDesc l = b :: t) :
    merge_first_good l =
      some { b with
        source := dedupFirst (collectSources (b :: t)),
        confidence := some
          (if 2 ≤ (dedupFirst (collectSources (b :: t))).length ∧ pyTruthy b.loc = true
           then 9/10
           else if pyTruthy b.loc = true then 7/10 else 6/10),
        age_ms := some 0 } := by
  rw [merge_first_good, h]

theorem score_le_maxScore {r : NormalizedRecord} {l : List NormalizedRecord}
    (h : r ∈ l) : score r ≤ maxScore l := by
  induction l with
  | nil => cases h
  | cons x xs ih =>
    rcases List.mem_cons.mp h with rfl | h
    · exact Nat.le_max_left _ _
    · exact Nat.le_trans (ih h) (Nat.le_max_right _ _)

/-- C1: on a non-empty candidate list the merge takes as base a
candidate of maximal score (scores computed by the score function: +3
truthy loc, +1 truthy timezone, +1 truthy country or country_code, +1
non-empty asn.asn), and on ties the first-encountered candidate in
input order wins: the base is exactly the first list element whose
score equals the maximum. -/
theorem c1_merge_selects_first_max_score (l : List NormalizedRecord)
    (h : l ≠ []) :
    ∃ b, mergeBase l = some b
      ∧ l.find? (fun r => score r == maxScore l) = some b
      ∧ b ∈ l ∧ score b = maxScore l
      ∧ ∀ r ∈ l, score r ≤ score b := by
  obtain ⟨b, t, hbt⟩ : ∃ b t, sortDesc l = b :: t := by
    cases hs : sortDesc l with
    | nil => exact absurd ((sortDesc_eq_nil_iff l).mp hs) h
    | cons b t => exact ⟨b, t, rfl⟩
  have hbase : mergeBase l = some b := by
    rw [mergeBase, hbt]
    rfl
  have hfind : l.find? (fun r => score r == maxScore l) = some b := by
    rw [← mergeBase_eq_find l]
    exact hbase
  have hsb : score b = maxScore l := by
    have := List.find?_some hfind
    simpa using this
  have hmem : b ∈ l := by
    have : b ∈ sortDesc l := by
      rw [hbt]
      exact List.mem_cons_self _ _
    exact mem_sortDesc.mp this
  exact ⟨b, hbase, hfind, hmem, hsb, fun r hr => hsb ▸ score_le_maxScore hr⟩

/-- Record with only a timezone, first in the tie-break evaluations. -/
def recA : NormalizedRecord := { rec0 with timezone := some "t", source := ["a"] }

/-- Record with only a timezone, tied in score with recA. -/
def recB : NormalizedRecord := { rec0 with timezone := some "u", source := ["b", "a"] }

/-- Record with a truthy loc, outscoring recA and recB. -/
def recLoc : NormalizedRecord :=
  { rec0 with loc := some "1.000000,2.000000", source := ["b"] }

/-- C1 witness: on the concrete two-element tie the merge base is the
first-encountered candidate. -/
theorem c1_merge_selects_first_max_score_witness :
    ([recA, recB] : List NormalizedRecord) ≠ []
      ∧ ∃ b, mergeBase [recA, recB] = some b
          ∧ [recA, recB].find? (fun r => score r == maxScore [recA, recB]) = some b
          ∧ b ∈ [recA, recB] ∧ score b = maxScore [recA, recB]
          ∧ ∀ r ∈ [recA, recB], score r ≤ score b :=
  ⟨by decide, c1_merge_selects_first_max_score [recA, recB] (by decide)⟩

/-- C3: the confidence of every merged record is 9/10 when its merged
source list has at least two entries (the list is duplicate-free, so
entries are distinct) and its loc is truthy, else 7/10 with a truthy
loc, else 6/10, and no other value occurs. -/
theorem c3_confidence_rule (l : List NormalizedRecord) (m : NormalizedRecord)
    (h : merge_first_good l = some m) :
    m.confidence = some
        (if 2 ≤ m.source.length ∧ pyTruthy m.loc = true then 9/10
         else if pyTruthy m.loc = true then 7/10 else 6/10)
      ∧ (m.confidence = some (9/10) ∨ m.confidence = some (7/10)
          ∨ m.confidence = some (6/10))
      ∧ m.source.Nodup := by
  obtain ⟨b, t, hbt⟩ : ∃ b t, sortDesc l = b :: t := by
    cases hs : sortDesc l with
    | nil =>
      rw [merge_first_good, hs] at h
      cases h
    | cons b t => exact ⟨b, t, rfl⟩
  rw [merge_first_good_of_sortDesc hbt] at h
  have hm := (Option.some_inj.mp h).symm
  subst hm
  refine ⟨by rfl, ?_, nodup_dedupFirst _⟩
  split_ifs <;> simp

/-- The merged record of the concrete two-candidate run used in the C3
witness. -/
def c3m : NormalizedRecord :=
  { recLoc with source := ["b", "a"], confidence := some (9/10), age_ms := some 0 }

/-- C3 witness: concrete merge of a loc-bearing and a loc-less record
from two distinct sources gets confidence 9/10. -/
theorem c3_confidence_rule_witness :
    c3m.confidence = some
        (if 2 ≤ c3m.source.length ∧ pyTruthy c3m.loc = true then 9/10
         else if pyTruthy c3m.loc = true then 7/10 else 6/10)
      ∧ (c3m.confidence = some (9/10) ∨ c3m.confidence = some (7/10)
          ∨ c3m.confidence = some (6/10))
      ∧ c3m.source.Nodup :=
  c3_confidence_rule [recLoc, recA] c3m (by decide)

/-- C4: every merged record's source list is the duplicate-free union,
in first-seen order over the ranked candidates, of all candidates'
source lists, and every body field other than source, confidence and
age_ms comes from the single winning base candidate. -/
theorem c4_source_union_and_base_body (l : List NormalizedRecord)
    (m : NormalizedRecord) (h : merge_first_good l = some m) :
    ∃ b, mergeBase l = some b ∧ b ∈ l
      ∧ m.ip = b.ip ∧ m.city = b.city ∧ m.region = b.region
      ∧ m.region_code = b.region_code ∧ m.country = b.country
      ∧ m.country_code = b.country_code ∧ m.continent = b.continent
      ∧ m.continent_code = b.continent_code ∧ m.loc = b.loc
      ∧ m.postal = b.postal ∧ m.timezone = b.timezone
      ∧ m.asn = b.asn ∧ m.company = b.company ∧ m.privacy = b.privacy
      ∧ m.source = dedupFirst (collectSources (sortDesc l))
      ∧ m.source.Nodup
      ∧ (∀ s, s ∈ m.source ↔ ∃ r, r ∈ l ∧ s ∈ r.source) := by
  obtain ⟨b, t, hbt⟩ : ∃ b t, sortDesc l = b :: t := by
    cases hs : sortDesc l with
    | nil =>
      rw [merge_first_good, hs] at h
      cases h
    | cons b t => exact ⟨b, t, rfl⟩
  rw [merge_first_good_of_sortDesc hbt] at h
  have hm := (Option.some_inj.mp h).symm
  subst hm
  have hbase : mergeBase l = some b := by
    rw [mergeBase, hbt]
    rfl
  refine ⟨b, hbase, ?_, rfl, rfl, rfl, rfl, rfl, rfl, rfl, rfl, rfl, rfl, rfl,
    rfl, rfl, rfl, ?_, nodup_dedupFirst _, ?_⟩
  · have : b ∈ sortDesc l := by
      rw [hbt]
      exact List.mem_cons_self _ _
    exact mem_sortDesc.mp this
  · rw [hbt]
  · intro s
    show s ∈ dedupFirst (collectSources (b :: t)) ↔ _
    rw [mem_dedupFirst, ← hbt, mem_collectSources]
    constructor
    · rintro ⟨r, hr, hs⟩
      exact ⟨r, mem_sortDesc.mp hr, hs⟩
    · rintro ⟨r, hr, hs⟩
      exact ⟨r, mem_sortDesc.mpr hr, hs⟩

/-- The merged record of the concrete tie run used in the C4 witness:
the base is the first candidate and the sources of both are merged
without duplicating the shared provider name. -/
def c4m : NormalizedRecord :=
  { recA with source := ["a", "b"], confidence := some (6/10), age_ms := some 0 }

/-- C4 witness: concrete merge of candidates with sources a and b,a
yields the deduplicated union a,b with the body of the first candidate. -/
theorem c4_source_union_and_base_body_witness :
    ∃ b, mergeBase [recA, recB] = some b ∧ b ∈ [recA, recB]
      ∧ c4m.ip = b.ip ∧ c4m.city = b.city ∧ c4m.region = b.region
      ∧ c4m.region_code = b.region_code ∧ c4m.country = b.country
      ∧ c4m.country_code = b.country_code ∧ c4m.continent = b.continent
      ∧ c4m.continent_code = b.continent_code ∧ c4m.loc = b.loc
      ∧ c4m.postal = b.postal ∧ c4m.timezone = b.timezone
      ∧ c4m.asn = b.asn ∧ c4m.company = b.company ∧ c4m.privacy = b.privacy
      ∧ c4m.source = dedupFirst (collectSources (sortDesc [recA, recB]))
      ∧ c4m.source.Nodup
      ∧ (∀ s, s ∈ c4m.source ↔ ∃ r, r ∈ [recA, recB] ∧ s ∈ r.source) :=
  c4_source_union_and_base_body [recA, recB] c4m (by decide)

/-- An ipinfo.io body whose loc field is an arbitrary string. -/
def cexIpinfoLoc : IpinfoResp :=
  { ip := none, city := none, region := none, country := none,
    loc := some "x", postal := none, timezone := none, org := none }

/-- C2 counterexample: the ipinfo.io adapter copies the provider loc
string into the record verbatim, so a successful ipinfo.io response
with loc equal to the string x produces a record whose loc is present
but is not a pair of range-checked 6-decimal coordinates, contradicting
the claim for records produced by any adapter. -/
theorem c2_counterexample :
    (p_ipinfo "1.2.3.4" "tok" (HttpResult.response 200 (some cexIpinfoLoc))).map
        NormalizedRecord.loc = some (some "x")
      ∧ locFormatOK "x" = false := by
  constructor
  · rfl
  · rfl

/-- C2 (amended): the loc of a record built by the ipapi.co and
BigDataCloud adapters is exactly the output of norm_coord on the
provider coordinates, and norm_coord yields a value only when both
coordinates are present with the latitude in [-90, 90] and the
longitude in [-180, 180], the value being the two 6-decimal renderings
joined by a comma; latitude 37.5 with longitude -122.3 gives exactly
the string 37.500000,-122.300000 and latitude 95 gives an absent loc.
The ipinfo.io adapter, however, copies the provider loc string into the
record verbatim, so its records carry whatever string the provider
sent. -/
theorem c2_loc_format :
    (∀ ip d, (p_ipapi_parse ip d).loc = norm_coord d.latitude d.longitude)
  ∧ (∀ ip d, (p_bigdatacloud_parse ip d).loc
      = norm_coord (d.location.getD BdcLocation.empty).latitude
          (d.location.getD BdcLocation.empty).longitude)
  ∧ (∀ ip d, (p_ipinfo_parse ip d).loc = d.loc)
  ∧ (∀ lat lon s, norm_coord lat lon = some s →
      ∃ la lo, lat = some la ∧ lon = some lo
        ∧ -90 ≤ la ∧ la ≤ 90 ∧ -180 ≤ lo ∧ lo ≤ 180
        ∧ s = fmt6 la ++ "," ++ fmt6 lo)
  ∧ norm_coord (some (75/2)) (some (-1223/10)) = some "37.500000,-122.300000"
  ∧ (∀ lon, norm_coord (some 95) lon = none) := by
  refine ⟨fun ip d => rfl, fun ip d => rfl, fun ip d => rfl, ?_, ?_, ?_⟩
  · intro lat lon s h
    cases lat with
    | none => simp [norm_coord] at h
    | some la =>
      cases lon with
      | none => simp [norm_coord] at h
      | some lo =>
        rw [norm_coord] at h
        by_cases hc : -90 ≤ la ∧ la ≤ 90 ∧ -180 ≤ lo ∧ lo ≤ 180
        · rw [if_pos hc] at h
          obtain ⟨h1, h2, h3, h4⟩ := hc
          exact ⟨la, lo, rfl, rfl, h1, h2, h3, h4, (Option.some_inj.mp h).symm⟩
        · rw [if_neg hc] at h
          cases h
  · decide
  · intro lon
    cases lon with
    | none => rfl
    | some lo =>
      have hno : ¬ (-90 ≤ (95 : ℚ) ∧ (95 : ℚ) ≤ 90 ∧ -180 ≤ lo ∧ lo ≤ 180) := by
        rintro ⟨h1, h2, h3⟩
        norm_num at h2
      rw [norm_coord, if_neg hno]

/-- C2 witness: the norm_coord characterisation applied at the
concrete in-range pair (1, 2). -/
theorem c2_loc_format_witness :
    ∃ la lo, (some (1 : ℚ)) = some la ∧ (some (2 : ℚ)) = some lo
      ∧ -90 ≤ la ∧ la ≤ 90 ∧ -180 ≤ lo ∧ lo ≤ 180
      ∧ "1.000000,2.000000" = fmt6 la ++ "," ++ fmt6 lo :=
  c2_loc_format.2.2.2.1 (some 1) (some 2) "1.000000,2.000000" (by decide)

/-- An ipinfo.io body whose org field carries no numeric ASN. -/
def cexIpinfoOrg : IpinfoResp :=
  { ip := none, city := none, region := none, country := none,
    loc := none, postal := none, timezone := none, org := some "Foobar Inc" }

/-- C9 counterexample: an ipinfo.io org value of Foobar Inc makes the
adapter feed the token Foobar to the ASN block builder, which
uppercases it and prepends AS, yielding asn.asn equal to ASFOOBAR,
which is not the empty string and not AS followed by digits. -/
theorem c9_counterexample :
    (p_ipinfo "1.2.3.4" "tok" (HttpResult.response 200 (some cexIpinfoOrg))).map
        (fun r => r.asn.asn) = some "ASFOOBAR"
      ∧ asnShapeClaim "ASFOOBAR" = false := by
  constructor
  · rfl
  · rfl

/-- C9 (amended): every ASN block the code builds has asn either empty
or the literal AS followed by the non-empty remainder of the uppercased
provider value after stripping leading A and S characters (digits only
when the provider sent digits); asn.domain and company.domain are
always empty in every adapter record, and the merge takes its asn and
company blocks unchanged from one of its candidates. -/
theorem c9_asn_and_domain_shape :
    (∀ a o, (asn_block a o).asn = ""
        ∨ ∃ t, (asn_block a o).asn = "AS" ++ t ∧ t ≠ ""
            ∧ t = lstripAS (strUpper (pyOr a "")))
  ∧ (∀ a o, (asn_block a o).domain = "")
  ∧ (∀ i, (isp_to_company i).domain = "")
  ∧ (∀ ip d, (p_ipapi_parse ip d).asn = asn_block d.asn d.org
        ∧ (p_ipapi_parse ip d).company.domain = "")
  ∧ (∀ ip d, (p_ipinfo_parse ip d).company.domain = ""
        ∧ ∃ a o, (p_ipinfo_parse ip d).asn = asn_block a o)
  ∧ (∀ ip d, (p_bigdatacloud_parse ip d).company.domain = ""
        ∧ ∃ a o, (p_bigdatacloud_parse ip d).asn = asn_block a o)
  ∧ (∀ l m, merge_first_good l = some m →
        ∃ b, b ∈ l ∧ m.asn = b.asn ∧ m.company = b.company) := by
  refine ⟨?_, fun a o => rfl, fun i => rfl, fun ip d => ⟨rfl, rfl⟩,
    fun ip d => ⟨rfl, ?_⟩, fun ip d => ⟨rfl, ?_⟩, ?_⟩
  · intro a o
    by_cases h : lstripAS (strUpper (pyOr a "")) = ""
    · left
      simp [asn_block, h]
    · right
      exact ⟨lstripAS (strUpper (pyOr a "")), by simp [asn_block, h], h, rfl⟩
  · exact ⟨_, _, rfl⟩
  · exact ⟨_, _, rfl⟩
  · intro l m h
    obtain ⟨b, t, hbt⟩ : ∃ b t, sortDesc l = b :: t := by
      cases hs : sortDesc l with
      | nil =>
        rw [merge_first_good, hs] at h
        cases h
      | cons b t => exact ⟨b, t, rfl⟩
    rw [merge_first_good_of_sortDesc hbt] at h
    have hm := (Option.some_inj.mp h).symm
    subst hm
    refine ⟨b, ?_, rfl, rfl⟩
    have : b ∈ sortDesc l := by
      rw [hbt]
      exact List.mem_cons_self _ _
    exact mem_sortDesc.mp this

/-- The merged record of the single-candidate run used in the C9
witness. -/
def c9m : NormalizedRecord :=
  { recA with confidence := some (6/10), age_ms := some 0 }

/-- C9 witness: the merge of the single concrete candidate keeps its
asn and company blocks. -/
theorem c9_asn_and_domain_shape_witness :
    ∃ b, b ∈ [recA] ∧ c9m.asn = b.asn ∧ c9m.company = b.company :=
  c9_asn_and_domain_shape.2.2.2.2.2.2 [recA] c9m (by decide)

/-- C5: no adapter ever surfaces an error (each is a total function
into an optional record), and every error condition yields the absent
result none: a transport error, a non-2xx response, an unparsable 200
body, and a missing credential (the IPINFO_TOKEN of ipinfo.io, the
BDC_KEY of BigDataCloud), indistinguishable from having no data. -/
theorem c5_adapters_fail_soft (ip token key : String) (s : Nat)
    (ba : Option IpapiResp) (bi : Option IpinfoResp) (bb : Option BdcResp) :
    (p_ipapi ip HttpResult.transportError = none)
  ∧ (¬ (200 ≤ s ∧ s ≤ 299) → p_ipapi ip (HttpResult.response s ba) = none)
  ∧ (p_ipapi ip (HttpResult.response 200 none) = none)
  ∧ (p_ipinfo ip token HttpResult.transportError = none)
  ∧ (¬ (200 ≤ s ∧ s ≤ 299) → p_ipinfo ip token (HttpResult.response s bi) = none)
  ∧ (p_ipinfo ip token (HttpResult.response 200 none) = none)
  ∧ (token = "" → ∀ h, p_ipinfo ip token h = none)
  ∧ (p_bigdatacloud ip key HttpResult.transportError = none)
  ∧ (¬ (200 ≤ s ∧ s ≤ 299) →
        p_bigdatacloud ip key (HttpResult.response s bb) = none)
  ∧ (p_bigdatacloud ip key (HttpResult.response 200 none) = none)
  ∧ (key = "" → ∀ h, p_bigdatacloud ip key h = none) := by
  refine ⟨rfl, ?_, rfl, ?_, ?_, ?_, ?_, ?_, ?_, ?_, ?_⟩
  · intro hs
    have h200 : s ≠ 200 := by omega
    simp [p_ipapi, h200]
  · by_cases h : token = "" <;> simp [p_ipinfo, h]
  · intro hs
    have h200 : s ≠ 200 := by omega
    by_cases h : token = "" <;> simp [p_ipinfo, h, h200]
  · by_cases h : token = "" <;> simp [p_ipinfo, h]
  · intro h hh
    simp [p_ipinfo, h]
  · by_cases h : key = "" <;> simp [p_bigdatacloud, h]
  · intro hs
    have h200 : s ≠ 200 := by omega
    by_cases h : key = "" <;> simp [p_bigdatacloud, h, h200]
  · by_cases h : key = "" <;> simp [p_bigdatacloud, h]
  · intro h hh
    simp [p_bigdatacloud, h]

/-- C5 witness: a 404 response and a missing ipinfo.io token at
concrete inputs both produce the absent result. -/
theorem c5_adapters_fail_soft_witness :
    p_ipapi "8.8.8.8" (HttpResult.response 404 none) = none
      ∧ p_ipinfo "8.8.8.8" "" HttpResult.transportError = none := by
  constructor
  · exact (c5_adapters_fail_soft "8.8.8.8" "" "" 404 none none none).2.1
      (by omega)
  · exact (c5_adapters_fail_soft "8.8.8.8" "" "" 404 none none
      none).2.2.2.2.2.2.1 rfl HttpResult.transportError

/-- C6: whenever the post-fetch step of lookup_ip writes a merged
record to the cache, a record whose privacy.hosting flag is true is
written with a ttl of at most 600 seconds even when the configured
default TTL is larger, and a record without the flag is written with
exactly the default TTL. -/
theorem c6_hosting_ttl_cap (defaultTTL : Nat) (ip : String)
    (completed : List NormalizedRecord) (k : String) (m : NormalizedRecord)
    (ttl : Nat)
    (h : (lookup_ip_step defaultTTL ip none completed).write = some (k, m, ttl)) :
    (m.privacy.hosting = true → ttl ≤ 600)
      ∧ (m.privacy.hosting = false → ttl = defaultTTL) := by
  rw [lookup_ip_step] at h
  cases hm : merge_first_good completed with
  | none =>
    rw [hm] at h
    cases h
  | some m0 =>
    rw [hm] at h
    simp only [Option.some_inj, Prod.mk.injEq] at h
    obtain ⟨hk, hmm, httl⟩ := h
    subst hmm
    subst httl
    cases hb : m0.privacy.hosting with
    | true =>
      constructor
      · intro _
        simp
      · intro hfalse
        exact Bool.noConfusion hfalse
    | false =>
      constructor
      · intro htrue
        exact Bool.noConfusion htrue
      · intro _
        simp

/-- A record whose organisation marks it as hosting, so its
privacy.hosting flag is set. -/
def recHost : NormalizedRecord :=
  { rec0 with
    privacy := { vpn := false, proxy := false, tor := false, relay := false,
                 hosting := true },
    source := ["h"] }

/-- The merged record of the single-candidate hosting run used in the
C6 witness. -/
def c6m : NormalizedRecord :=
  { recHost with confidence := some (6/10), age_ms := some 0 }

/-- C6 witness: with a default TTL of 1800 the concrete hosting record
is written with ttl 600. -/
theorem c6_hosting_ttl_cap_witness :
    (c6m.privacy.hosting = true → 600 ≤ 600)
      ∧ (c6m.privacy.hosting = false → 600 = 1800) :=
  c6_hosting_ttl_cap 1800 "8.8.8.8" [recHost] ("ip:" ++ "8.8.8.8") c6m 600
    (by decide)

/-- C8: a lookup that reaches the fetch phase (cache miss) and whose
set of completed adapter results is empty returns the absent result and
performs no cache write, so applying its write to any in-process cache
at any time leaves the cache unchanged. -/
theorem c8_empty_results_no_write (defaultTTL : Nat) (ip : String) :
    lookup_ip_step defaultTTL ip none [] =
        { result := none, write := none }
      ∧ ∀ (c : MemCache) (now : ℚ),
          applyWrite c now (lookup_ip_step defaultTTL ip none []).write = c := by
  constructor
  · rfl
  · intro c now
    rfl

/-- C7: the in-process cache backend never returns an expired entry:
an entry whose stored absolute expiry is strictly in the past at read
time is reported as a miss and removed from the mapping; every hit
returns an unexpired stored record; and a set followed by a get within
the TTL returns the stored record. -/
theorem c7_cache_no_expired_reads (c : MemCache) (now now2 ttl exp : ℚ)
    (key : String) (v r : NormalizedRecord) :
    (c.mem key = some (exp, v) → exp < now →
        (c.get now key).1 = none ∧ ((c.get now key).2).mem key = none)
  ∧ ((c.get now key).1 = some r →
        ∃ e, c.mem key = some (e, r) ∧ ¬ e < now)
  ∧ (now2 ≤ now + ttl → ((c.set now key v ttl).get now2 key).1 = some v) := by
  refine ⟨?_, ?_, ?_⟩
  · intro h1 h2
    simp only [MemCache.get, h1]
    rw [if_pos h2]
    simp
  · intro h
    cases hm : c.mem key with
    | none => simp [MemCache.get, hm] at h
    | some p =>
      obtain ⟨e, val⟩ := p
      simp only [MemCache.get, hm] at h
      by_cases he : e < now
      · rw [if_pos he] at h
        cases h
      · rw [if_neg he] at h
        simp only [Option.some_inj] at h
        subst h
        exact ⟨e, rfl, he⟩
  · intro h
    have h2 : ¬ (now + ttl < now2) := not_lt.mpr h
    simp [MemCache.get, MemCache.set, h2]

/-- The empty in-process cache. -/
def cache0 : MemCache := ⟨fun _ => none⟩

/-- The cache after storing the blank record under a concrete key at
time 0 with TTL 1. -/
def cache1 : MemCache := cache0.set 0 "ip:8.8.8.8" rec0 1

/-- C7 witness: the concrete set-then-get within the TTL returns the
stored record, and the same entry read after its expiry is a miss and
is removed. -/
theorem c7_cache_no_expired_reads_witness :
    ((cache1.get 1 "ip:8.8.8.8").1 = some rec0)
      ∧ ((cache1.get 2 "ip:8.8.8.8").1 = none
          ∧ ((cache1.get 2 "ip:8.8.8.8").2).mem "ip:8.8.8.8" = none) := by
  constructor
  · exact (c7_cache_no_expired_reads cache0 0 1 1 0 "ip:8.8.8.8" rec0 rec0).2.2
      (by decide)
  · exact (c7_cache_no_expired_reads cache1 2 0 0 (0 + 1) "ip:8.8.8.8" rec0
      rec0).1 (by decide) (by decide)

/-- C10 counterexample: under idealised timing a first-wave task with
latency 17/10 seconds completes and contributes its record, although
17/10 exceeds the claimed overall deadline of 16/10 seconds measured
from the launch of the first wave; the claimed scheduler (the same
collection with deadline 16/10 from first launch) would have cancelled
it. The code's wait timeout starts only after the 2/10 second stagger
sleep. -/
theorem c10_counterexample :
    hedgeResults [((17 : ℚ)/10, some rec0)] = [rec0]
      ∧ collectFrom waitTimeoutS 0 [((17 : ℚ)/10, some rec0)] = []
      ∧ ¬ ((17 : ℚ)/10 ≤ waitTimeoutS) := by
  refine ⟨?_, ?_, by norm_num [waitTimeoutS]⟩
  · rw [hedgeResults, collectFrom]
    rw [if_pos (by norm_num [startTime, hedgeDeadline, staggerS, waitTimeoutS])]
    rfl
  · rw [collectFrom]
    rw [if_neg (by norm_num [startTime, waitTimeoutS])]
    rfl

/-- C10 (amended): under idealised timing (sleeps exact, other work
instantaneous) the scheduler launches the first two providers at time
0 and every later provider after the 2/10 second stagger, and collects
exactly the tasks finishing by staggerS + waitTimeoutS, that is 18/10
seconds after the first-wave launch (the 16/10 second wait timeout is
measured from the start of the final wait, after the stagger, not from
the first-wave launch); every task still pending at that deadline is
cancelled and contributes no result. -/
theorem c10_hedge_timing :
    (∀ i, i < 2 → startTime i = 0)
  ∧ (∀ i, 2 ≤ i → startTime i = staggerS)
  ∧ staggerS = 2/10 ∧ waitTimeoutS = 16/10
  ∧ hedgeDeadline = staggerS + waitTimeoutS
  ∧ (∀ tasks, hedgeResults tasks = collectFrom (staggerS + waitTimeoutS) 0 tasks)
  ∧ (∀ deadline i tasks,
        (∀ j dur res, tasks[j]? = some (dur, res) →
            deadline < startTime (i + j) + dur) →
        collectFrom deadline i tasks = []) := by
  refine ⟨?_, ?_, rfl, rfl, rfl, fun tasks => rfl, ?_⟩
  · intro i hi
    rw [startTime, if_pos hi]
  · intro i hi
    rw [startTime, if_neg (by omega)]
  · intro deadline i tasks
    induction tasks generalizing i with
    | nil => intro _; rfl
    | cons td rest ih =>
      intro h
      obtain ⟨dur, res⟩ := td
      have h0 : deadline < startTime i + dur := by
        have := h 0 dur res (by simp)
        simpa using this
      simp only [collectFrom]
      rw [if_neg (not_le.mpr h0)]
      apply ih
      intro j dur2 res2 hj
      have hstep := h (j + 1) dur2 res2 (by simpa using hj)
      have hidx : i + (j + 1) = (i + 1) + j := by omega
      rw [hidx] at hstep
      exact hstep

/-- C10 witness: the cancellation conjunct applied to a concrete
single-task list whose latency 2 misses the deadline. -/
theorem c10_hedge_timing_witness :
    collectFrom hedgeDeadline 0 [((2 : ℚ), some rec0)] = []
      ∧ startTime 0 = 0 := by
  constructor
  · apply c10_hedge_timing.2.2.2.2.2.2
    intro j dur res hj
    cases j with
    | zero =>
      have hpair : ((2 : ℚ), some rec0) = (dur, res) := by simpa using hj
      injection hpair with h1 h2
      subst h1
      norm_num [hedgeDeadline, startTime, staggerS, waitTimeoutS]
    | succ n =>
      simp at hj
  · exact c10_hedge_timing.1 0 (by omega)
